import Mathlib

/-!
Verification of the Focus Session State Machine and Behavioral Event Log of
the adhdplanner_windows repository, as a shallow embedding in Lean 4.

Embedded source files:
* `src/renderer/src/services/tracker/types.ts`   — event payload definitions
* `src/renderer/src/services/tracker/summary.ts` — `buildDailySummary`
* `src/renderer/src/services/tracker/tracker.ts` — `Tracker.flush` / `track`
* `src/renderer/src/App.tsx`                     — session-controller handlers
* `src/renderer/src/components/WidgetView.tsx`   — stuck panel handlers

Conventions of the embedding:
* JavaScript numbers holding millisecond timestamps and second counts are
  modelled as `Int` (all arithmetic on them in the source is integral:
  `Math.floor((a-b)/1000)`, sums, `Math.round(n/60)` on integer `n`).
* `Math.floor(x / k)` on an integer `x` and positive `k` is `Int.fdiv x k`.
* `Math.round(n / d)` on integers with `d > 0` is `⌊(2n + d) / (2d)⌋`,
  i.e. round-half-up, matching JS semantics including negatives.
* `undefined` / absent optional fields and `null` are both `Option.none`.
* `toISO` (`new Date(ts).toISOString()`) is an injective, deterministic
  formatting of the timestamp; summary fields that hold such strings keep
  the raw millisecond timestamp instead.
-/

namespace Planner

/-- `Math.round(n / d)` for integers `n` and `d > 0`: JS rounds half toward
positive infinity, which is `⌊(2n + d) / (2d)⌋`. -/
def jsRound (n d : Int) : Int := Int.fdiv (2 * n + d) (2 * d)

/-- `'self' | 'ai_chip' | 'resume_original'` — the source discriminants used
by `plan.first_micro.source`, `stuck.reason.reasonSource` and
`stuck.pivot_chosen.pivotSource` (types.ts). -/
inductive Source where
  | self | aiChip | resumeOriginal
deriving DecidableEq, Repr

/-- `'task_done' | 'exit' | 'stuck' | 'abandon'` — end reasons used by
`exec.flow_ended.endReason` and `session.ended.endReason` (types.ts). -/
inductive EndReason where
  | taskDone | exit | stuck | abandon
deriving DecidableEq, Repr

/-- `'flow' | 'manual' | 'subtasks_all_done'` (types.ts,
`MacroTaskCompletedPayload.completedVia`). -/
inductive CompletedVia where
  | flow | manual | subtasksAllDone
deriving DecidableEq, Repr

/-- The closed union of event payloads of `TrackEventMap` (types.ts).
One constructor per event type; the constructor plays the role of the
`type` discriminant string. Field order follows the interface declarations. -/
inductive Payload where
  | planBrainDump (tasks : List (String × String)) (taskCount : Nat)
  | planFocusSelected (taskId taskTitle : String) (taskNote : Option String)
  | planFirstMicro (taskId taskTitle microAction : String) (source : Source)
  | execMicroStarted (sessionId taskId taskTitle microAction : String)
      (estimatedSeconds : Option Int)
  | execMicroCompleted (sessionId taskId taskTitle microAction : String)
      (actualSeconds : Int) (estimatedSeconds : Option Int)
  | execFlowEntered (sessionId taskId taskTitle lastMicroAction : String)
      (completedStepCount : Nat)
  | execFlowEnded (sessionId taskId taskTitle : String)
      (flowDurationSeconds : Int) (endReason : EndReason)
  | execSubtaskCompleted (sessionId taskId taskTitle subtaskId subtaskTitle : String)
  | stuckTriggered (sessionId taskId microAction : String) (elapsedSeconds : Int)
  | stuckReason (sessionId taskId microAction reason : String) (reasonSource : Source)
  | stuckPivotOffered (sessionId taskId empathy : String) (pivotSuggestions : List String)
  | stuckPivotChosen (sessionId taskId chosenPivot : String) (pivotSource : Source)
  | abandonExit (sessionId taskId taskTitle microAction : String)
      (elapsedSeconds : Int) (phase : String)
  | sessionStarted (sessionId taskId taskTitle : String)
  | sessionEnded (sessionId taskId taskTitle : String)
      (totalDurationSeconds : Int) (completedMicroSteps : Nat) (endReason : EndReason)
  | sessionMacroCompleted (taskId taskTitle : String) (completedVia : CompletedVia)
  | dailyLeftovers (leftoverTasks : List (String × String × String)) (totalCount : Nat)
deriving DecidableEq, Repr

/-- `TrackEvent` (types.ts): `id`, `timestamp` (ms), `date` (`YYYY-MM-DD`),
`payload`; the `type` string is determined by the payload constructor. -/
structure TrackEvent where
  id : String
  timestamp : Int
  date : String
  payload : Payload
deriving DecidableEq, Repr

/-! ### Typed per-event views

`summary.ts` uses `filterByType(events, t)`, a `filter` on `e.type === t`
followed by a cast to the payload type `t`. The embedding expresses the
same operation as a `filterMap` into a typed view carrying the event's
timestamp and that payload's fields. -/

/-- View of an `exec.micro_completed` event. -/
structure MicroCompletedE where
  timestamp : Int
  sessionId : String
  taskId : String
  taskTitle : String
  microAction : String
  actualSeconds : Int
  estimatedSeconds : Option Int
deriving DecidableEq, Repr

/-- View of a `stuck.triggered` event. -/
structure StuckTriggeredE where
  timestamp : Int
  sessionId : String
  taskId : String
  microAction : String
  elapsedSeconds : Int
deriving DecidableEq, Repr

/-- View of an `abandon.exit` event. -/
structure AbandonExitE where
  timestamp : Int
  sessionId : String
  taskId : String
  taskTitle : String
  microAction : String
  elapsedSeconds : Int
  phase : String
deriving DecidableEq, Repr

/-- View of an `exec.flow_entered` event. -/
structure FlowEnteredE where
  timestamp : Int
  sessionId : String
  taskId : String
  taskTitle : String
  lastMicroAction : String
  completedStepCount : Nat
deriving DecidableEq, Repr

/-- View of an `exec.flow_ended` event. -/
structure FlowEndedE where
  timestamp : Int
  sessionId : String
  taskId : String
  taskTitle : String
  flowDurationSeconds : Int
  endReason : EndReason
deriving DecidableEq, Repr

/-- View of a `stuck.reason` event. -/
structure StuckReasonE where
  timestamp : Int
  sessionId : String
  taskId : String
  microAction : String
  reason : String
  reasonSource : Source
deriving DecidableEq, Repr

/-- View of a `stuck.pivot_chosen` event. -/
structure StuckPivotChosenE where
  timestamp : Int
  sessionId : String
  taskId : String
  chosenPivot : String
  pivotSource : Source
deriving DecidableEq, Repr

/-- View of a `session.ended` event. -/
structure SessionEndedE where
  timestamp : Int
  sessionId : String
  taskId : String
  taskTitle : String
  totalDurationSeconds : Int
  completedMicroSteps : Nat
  endReason : EndReason
deriving DecidableEq, Repr

def asMicroCompleted (e : TrackEvent) : Option MicroCompletedE :=
  match e.payload with
  | .execMicroCompleted sid tid tt ma act est =>
      some ⟨e.timestamp, sid, tid, tt, ma, act, est⟩
  | _ => none

def asStuckTriggered (e : TrackEvent) : Option StuckTriggeredE :=
  match e.payload with
  | .stuckTriggered sid tid ma el => some ⟨e.timestamp, sid, tid, ma, el⟩
  | _ => none

def asAbandonExit (e : TrackEvent) : Option AbandonExitE :=
  match e.payload with
  | .abandonExit sid tid tt ma el ph => some ⟨e.timestamp, sid, tid, tt, ma, el, ph⟩
  | _ => none

def asFlowEntered (e : TrackEvent) : Option FlowEnteredE :=
  match e.payload with
  | .execFlowEntered sid tid tt lma csc => some ⟨e.timestamp, sid, tid, tt, lma, csc⟩
  | _ => none

def asFlowEnded (e : TrackEvent) : Option FlowEndedE :=
  match e.payload with
  | .execFlowEnded sid tid tt dur er => some ⟨e.timestamp, sid, tid, tt, dur, er⟩
  | _ => none

def asStuckReason (e : TrackEvent) : Option StuckReasonE :=
  match e.payload with
  | .stuckReason sid tid ma r rs => some ⟨e.timestamp, sid, tid, ma, r, rs⟩
  | _ => none

def asStuckPivotChosen (e : TrackEvent) : Option StuckPivotChosenE :=
  match e.payload with
  | .stuckPivotChosen sid tid cp ps => some ⟨e.timestamp, sid, tid, cp, ps⟩
  | _ => none

def asSessionEnded (e : TrackEvent) : Option SessionEndedE :=
  match e.payload with
  | .sessionEnded sid tid tt tot cms er => some ⟨e.timestamp, sid, tid, tt, tot, cms, er⟩
  | _ => none

/-- `filterByType(events, 'exec.micro_completed')` (summary.ts line 53). -/
def microCompletedOf (events : List TrackEvent) : List MicroCompletedE :=
  events.filterMap asMicroCompleted

/-- `filterByType(events, 'stuck.triggered')` (summary.ts line 54). -/
def stuckTriggeredOf (events : List TrackEvent) : List StuckTriggeredE :=
  events.filterMap asStuckTriggered

/-- `filterByType(events, 'abandon.exit')` (summary.ts line 55). -/
def abandonExitsOf (events : List TrackEvent) : List AbandonExitE :=
  events.filterMap asAbandonExit

/-- `filterByType(events, 'exec.flow_entered')` (summary.ts line 93). -/
def flowEnteredOf (events : List TrackEvent) : List FlowEnteredE :=
  events.filterMap asFlowEntered

/-- `filterByType(events, 'exec.flow_ended')` (summary.ts line 94). -/
def flowEndedOf (events : List TrackEvent) : List FlowEndedE :=
  events.filterMap asFlowEnded

/-- `filterByType(events, 'stuck.reason')` (summary.ts line 110). -/
def stuckReasonsOf (events : List TrackEvent) : List StuckReasonE :=
  events.filterMap asStuckReason

/-- `filterByType(events, 'stuck.pivot_chosen')` (summary.ts line 111). -/
def stuckPivotsOf (events : List TrackEvent) : List StuckPivotChosenE :=
  events.filterMap asStuckPivotChosen

/-- `filterByType(events, 'session.ended')` (summary.ts line 169). -/
def sessionEndsOf (events : List TrackEvent) : List SessionEndedE :=
  events.filterMap asSessionEnded

/-- `filterByType(events, 'plan.brain_dump')` (summary.ts line 37),
projected to the payload. -/
def brainDumpsOf (events : List TrackEvent) : List (List (String × String) × Nat) :=
  events.filterMap fun e =>
    match e.payload with
    | .planBrainDump tasks n => some (tasks, n)
    | _ => none

/-- `filterByType(events, 'plan.focus_selected')` (summary.ts line 38),
projected to `(taskId, taskTitle, taskNote)`. -/
def focusSelectsOf (events : List TrackEvent) : List (String × String × Option String) :=
  events.filterMap fun e =>
    match e.payload with
    | .planFocusSelected tid tt note => some (tid, tt, note)
    | _ => none

/-- `filterByType(events, 'plan.first_micro')` (summary.ts line 39),
projected to `(microAction, source)`. -/
def firstMicrosOf (events : List TrackEvent) : List (String × Source) :=
  events.filterMap fun e =>
    match e.payload with
    | .planFirstMicro _ _ ma src => some (ma, src)
    | _ => none

/-- `filterByType(events, 'session.macro_completed')` (summary.ts line 149),
projected to `completedVia`. -/
def macroCompletesOf (events : List TrackEvent) : List CompletedVia :=
  events.filterMap fun e =>
    match e.payload with
    | .sessionMacroCompleted _ _ via => some via
    | _ => none

/-- `filterByType(events, 'daily.leftovers')` (summary.ts line 159),
projected to the task list. -/
def leftoversOf (events : List TrackEvent) : List (List (String × String × String)) :=
  events.filterMap fun e =>
    match e.payload with
    | .dailyLeftovers tasks _ => some tasks
    | _ => none

/-! ### DailySummary structure (types.ts, `DailySummary`) -/

/-- Trail entry status: `'completed' | 'stuck' | 'abandoned'`. -/
inductive StepStatus where
  | completed | stuck | abandoned
deriving DecidableEq, Repr

/-- One entry of `DailySummary.microStepTrail`. -/
structure MicroEntry where
  microAction : String
  actualSeconds : Int
  estimatedSeconds : Option Int
  timeDeltaSeconds : Option Int
  status : StepStatus
deriving DecidableEq, Repr

/-- One entry of `DailySummary.flowEvents`. `triggeredAt` keeps the raw
millisecond timestamp that `toISO` formats. -/
structure FlowRecord where
  taskTitle : String
  triggeredAt : Int
  durationSeconds : Int
  lastMicroBeforeFlow : String
deriving DecidableEq, Repr

/-- One entry of `DailySummary.stuckEvents`. -/
structure StuckRecord where
  microAction : String
  reason : String
  reasonSource : Source
  pivotChosen : String
  pivotSource : Source
  rescueSucceeded : Option Bool
deriving DecidableEq, Repr

/-- One entry of `DailySummary.abandonments`. `time` keeps the raw
millisecond timestamp that `toISO` formats. -/
structure AbandonRecord where
  microAction : String
  taskTitle : String
  elapsedSeconds : Int
  time : Int
deriving DecidableEq, Repr

/-- `DailySummary.planning`. -/
structure PlanningPart where
  brainDumpTasks : List String
  focusTaskTitle : Option String
  firstMicroAction : Option String
  scaffoldSource : Option Source
deriving DecidableEq, Repr

/-- `DailySummary.macroTask`. -/
structure MacroTaskPart where
  title : Option String
  completed : Bool
  completedVia : Option CompletedVia
deriving DecidableEq, Repr

/-- `DailySummary.stats`. -/
structure StatsPart where
  totalMicroSteps : Nat
  completedMicroSteps : Nat
  totalStuckCount : Nat
  totalFlowMinutes : Int
  totalFocusMinutes : Int
  averageTimeDeltaSeconds : Option Int
deriving DecidableEq, Repr

/-- `DailySummary` (types.ts). -/
structure DailySummary where
  date : String
  planning : PlanningPart
  microStepTrail : List MicroEntry
  flowEvents : List FlowRecord
  stuckEvents : List StuckRecord
  abandonments : List AbandonRecord
  macroTask : MacroTaskPart
  leftoverTasks : List String
  stats : StatsPart
deriving DecidableEq, Repr

/-! ### buildDailySummary (summary.ts lines 35-200) -/

/-- Trail entry built from one `exec.micro_completed` event
(summary.ts lines 61-71): `delta = actual - estimated` when an estimate
is present, `undefined` otherwise. -/
def completedEntry (e : MicroCompletedE) : MicroEntry :=
  { microAction := e.microAction
    actualSeconds := e.actualSeconds
    estimatedSeconds := e.estimatedSeconds
    timeDeltaSeconds := e.estimatedSeconds.map (fun est => e.actualSeconds - est)
    status := .completed }

/-- Trail entry built from one `stuck.triggered` event (summary.ts lines
73-79); the optional fields are left `undefined`. -/
def stuckEntry (e : StuckTriggeredE) : MicroEntry :=
  { microAction := e.microAction
    actualSeconds := e.elapsedSeconds
    estimatedSeconds := none
    timeDeltaSeconds := none
    status := .stuck }

/-- Trail entry built from one `abandon.exit` event (summary.ts lines
81-87); the optional fields are left `undefined`. -/
def abandonEntry (e : AbandonExitE) : MicroEntry :=
  { microAction := e.microAction
    actualSeconds := e.elapsedSeconds
    estimatedSeconds := none
    timeDeltaSeconds := none
    status := .abandoned }

/-- Flow record for one `exec.flow_entered` event (summary.ts lines
96-107): `flowEnded.find(e => e.payload.sessionId === enter.payload.sessionId)`,
duration defaulting to 0. -/
def flowRecordFor (flowEnded : List FlowEndedE) (enter : FlowEnteredE) : FlowRecord :=
  let endE := flowEnded.find? (fun e => e.sessionId == enter.sessionId)
  { taskTitle := enter.taskTitle
    triggeredAt := enter.timestamp
    durationSeconds := (endE.map (·.flowDurationSeconds)).getD 0
    lastMicroBeforeFlow := enter.lastMicroAction }

/-- The pivot matched to one `stuck.reason` event (summary.ts lines
115-118): `stuckPivots.find(p => p.payload.sessionId === reason.payload.sessionId
&& p.timestamp > reason.timestamp)`. -/
def pivotFor (stuckPivots : List StuckPivotChosenE) (reason : StuckReasonE) :
    Option StuckPivotChosenE :=
  stuckPivots.find? (fun p => p.sessionId == reason.sessionId
    && p.timestamp > reason.timestamp)

/-- Stuck-and-rescue record for one `stuck.reason` event (summary.ts lines
113-138). -/
def stuckRecordFor (stuckPivots : List StuckPivotChosenE)
    (microCompleted : List MicroCompletedE) (reason : StuckReasonE) : StuckRecord :=
  let pivot := pivotFor stuckPivots reason
  let rescueSucceeded : Option Bool :=
    match pivot with
    | none => none
    | some p =>
        some ((microCompleted.find? (fun mc => mc.sessionId == p.sessionId
          && mc.timestamp > p.timestamp)).isSome)
  { microAction := reason.microAction
    reason := reason.reason
    reasonSource := reason.reasonSource
    pivotChosen := ((pivot.map (·.chosenPivot)).getD "")
    pivotSource := ((pivot.map (·.pivotSource)).getD .self)
    rescueSucceeded := rescueSucceeded }

/-- `buildDailySummary(date, events)` (summary.ts lines 35-200). -/
def buildDailySummary (date : String) (events : List TrackEvent) : DailySummary :=
  -- 1. planning snapshot: last-write-wins per field
  let brainDumps := brainDumpsOf events
  let focusSelects := focusSelectsOf events
  let firstMicros := firstMicrosOf events
  let latestDump := brainDumps.getLast?
  let latestFocus := focusSelects.getLast?
  let latestFirstMicro := firstMicros.getLast?
  let planning : PlanningPart :=
    { brainDumpTasks := ((latestDump.map (fun d => d.1.map (·.2))).getD [])
      focusTaskTitle := latestFocus.map (·.2.1)
      firstMicroAction := latestFirstMicro.map (·.1)
      scaffoldSource := latestFirstMicro.map (·.2) }
  -- 2. micro-step trail: completed, then stuck, then abandoned
  let microCompleted := microCompletedOf events
  let stuckTriggered := stuckTriggeredOf events
  let abandonExits := abandonExitsOf events
  let microStepTrail : List MicroEntry :=
    microCompleted.map completedEntry
      ++ stuckTriggered.map stuckEntry
      ++ abandonExits.map abandonEntry
  -- 3. flow events
  let flowEntered := flowEnteredOf events
  let flowEnded := flowEndedOf events
  let flowEvents := flowEntered.map (flowRecordFor flowEnded)
  -- 4. stuck-and-rescue records
  let stuckReasons := stuckReasonsOf events
  let stuckPivots := stuckPivotsOf events
  let stuckEvents := stuckReasons.map (stuckRecordFor stuckPivots microCompleted)
  -- 5. abandonments
  let abandonments : List AbandonRecord := abandonExits.map (fun e =>
    { microAction := e.microAction
      taskTitle := e.taskTitle
      elapsedSeconds := e.elapsedSeconds
      time := e.timestamp })
  -- 6. macro-task closure
  let macroCompletes := macroCompletesOf events
  let latestMacro := macroCompletes.getLast?
  let macroTask : MacroTaskPart :=
    { title := latestFocus.map (·.2.1)
      completed := latestMacro.isSome
      completedVia := latestMacro }
  -- 7. leftover tasks
  let leftovers := leftoversOf events
  let latestLeftovers := leftovers.getLast?
  let leftoverTasks := ((latestLeftovers.map (fun l => l.map (·.2.1))).getD [])
  -- 8. statistics
  let completedCount := microCompleted.length
  let totalSteps := microStepTrail.length
  let totalFlowSec := flowEvents.foldl (fun sum f => sum + f.durationSeconds) 0
  let sessionEnds := sessionEndsOf events
  let totalFocusSec := sessionEnds.foldl (fun sum s => sum + s.totalDurationSeconds) 0
  let deltas := (microStepTrail.filter (fun m => m.timeDeltaSeconds.isSome)).filterMap
    (·.timeDeltaSeconds)
  let avgDelta : Option Int :=
    if deltas.length > 0 then
      some (jsRound (deltas.foldl (· + ·) 0) deltas.length)
    else none
  let stats : StatsPart :=
    { totalMicroSteps := totalSteps
      completedMicroSteps := completedCount
      totalStuckCount := stuckEvents.length
      totalFlowMinutes := jsRound totalFlowSec 60
      totalFocusMinutes := jsRound totalFocusSec 60
      averageTimeDeltaSeconds := avgDelta }
  { date := date
    planning := planning
    microStepTrail := microStepTrail
    flowEvents := flowEvents
    stuckEvents := stuckEvents
    abandonments := abandonments
    macroTask := macroTask
    leftoverTasks := leftoverTasks
    stats := stats }

/-! ### Session controller (App.tsx handlers, WidgetView.tsx stuck panel)

React's `setSession(s => ...)` updates are re-expressed as explicit state
passing: each handler takes the `sessionIdRef` value, the current clock
value `now` (`Date.now()`, milliseconds) and the current
`Option FocusSession`, and returns the new session state together with the
list of event payloads handed to `tracker.track` in emission order. -/

/-- JS `String.prototype.trim()`, modelled on the character list: strip
leading and trailing whitespace. -/
def jsTrim (s : String) : String :=
  String.mk
    (((s.data.dropWhile Char.isWhitespace).reverse.dropWhile Char.isWhitespace).reverse)

/-- `FocusSession.phase`:
`'executing' | 'relay' | 'stuck_a' | 'stuck_b'` (WidgetView.tsx). -/
inductive Phase where
  | executing | relay | stuckA | stuckB
deriving DecidableEq, Repr

/-- The phase string recorded in `abandon.exit.phase`. -/
def Phase.str : Phase → String
  | .executing => "executing"
  | .relay => "relay"
  | .stuckA => "stuck_a"
  | .stuckB => "stuck_b"

/-- `FocusSession` (WidgetView.tsx lines 34-43, plus the subtask fields
App.tsx stores on the session object). -/
structure FocusSession where
  sessionId : String
  taskId : String
  taskTitle : String
  currentMicroTask : String
  startTime : Int
  isFlowMode : Bool
  phase : Phase
  microHistory : List String
  currentSubtaskId : Option String := none
  currentSubtaskTitle : Option String := none
  isSubtaskTransition : Bool := false
  allSubtasksDone : Bool := false
deriving DecidableEq, Repr

/-- A handler's result: the new `session` state and the payloads passed to
`tracker.track`, in order. -/
abbrev HandlerOut := Option FocusSession × List Payload

/-- `handleStartMicro` (App.tsx lines 175-227), specialised to the task
found for `scaffoldTaskId`: creates the session and emits
`plan.first_micro`, `session.started`, `exec.micro_started`.
`sid` is the freshly generated session id. -/
def handleStartMicro (sid taskId taskTitle microTask : String) (source : Source)
    (now : Int) (activeSubtask : Option (String × String)) : HandlerOut :=
  let newSession : FocusSession :=
    { sessionId := sid
      taskId := taskId
      taskTitle := taskTitle
      currentMicroTask := microTask
      startTime := now
      isFlowMode := false
      phase := .executing
      microHistory := []
      currentSubtaskId := activeSubtask.map (·.1)
      currentSubtaskTitle := activeSubtask.map (·.2) }
  (some newSession,
    [Payload.planFirstMicro taskId taskTitle microTask source,
     Payload.sessionStarted sid taskId taskTitle,
     Payload.execMicroStarted sid taskId taskTitle microTask none])

/-- `handleMicroComplete` (App.tsx lines 230-248): guard `if (!session) return`,
then emit `exec.micro_completed` with elapsed seconds and move to `relay`,
appending the finished label to `microHistory`. -/
def handleMicroComplete (sidRef : String) (now : Int) (s? : Option FocusSession) :
    HandlerOut :=
  match s? with
  | none => (none, [])
  | some s =>
      let elapsed := Int.fdiv (now - s.startTime) 1000
      (some { s with phase := .relay,
                     microHistory := s.microHistory ++ [s.currentMicroTask] },
       [Payload.execMicroCompleted sidRef s.taskId s.taskTitle s.currentMicroTask
          elapsed none])

/-- `handleNextMicro` (App.tsx lines 251-270): emit `exec.micro_started` for
the next label and re-enter `executing` with a fresh `startTime`. -/
def handleNextMicro (sidRef : String) (now : Int) (micro : String)
    (s? : Option FocusSession) : HandlerOut :=
  match s? with
  | none => (none, [])
  | some s =>
      (some { s with phase := .executing, currentMicroTask := micro,
                     startTime := now, isSubtaskTransition := false,
                     allSubtasksDone := false },
       [Payload.execMicroStarted sidRef s.taskId s.taskTitle micro none])

/-- `handleStuck` (App.tsx lines 273-286): guard `if (!session) return`, emit
`stuck.triggered` with elapsed seconds, move to `stuck_a`. -/
def handleStuck (sidRef : String) (now : Int) (s? : Option FocusSession) :
    HandlerOut :=
  match s? with
  | none => (none, [])
  | some s =>
      let elapsed := Int.fdiv (now - s.startTime) 1000
      (some { s with phase := .stuckA },
       [Payload.stuckTriggered sidRef s.taskId s.currentMicroTask elapsed])

/-- `handleStuckToB` (App.tsx lines 289-292): phase change only, no event. -/
def handleStuckToB (s? : Option FocusSession) : HandlerOut :=
  match s? with
  | none => (none, [])
  | some s => (some { s with phase := .stuckB }, [])

/-- `handleResume` (App.tsx lines 295-312): emit `exec.micro_started` for the
new label and re-enter `executing` with a fresh `startTime`. -/
def handleResume (sidRef : String) (now : Int) (s? : Option FocusSession)
    (newMicro : String) : HandlerOut :=
  match s? with
  | none => (none, [])
  | some s =>
      (some { s with phase := .executing, currentMicroTask := newMicro,
                     startTime := now },
       [Payload.execMicroStarted sidRef s.taskId s.taskTitle newMicro none])

/-- `handleEnterFlow` (App.tsx lines 372-391): emit `exec.flow_entered` with
the last micro-action label and the completed-step count, set
`isFlowMode`, switch the display label to the macro task title, re-enter
`executing`. -/
def handleEnterFlow (sidRef : String) (now : Int) (s? : Option FocusSession) :
    HandlerOut :=
  match s? with
  | none => (none, [])
  | some s =>
      (some { s with phase := .executing, isFlowMode := true, startTime := now,
                     currentMicroTask := s.taskTitle },
       [Payload.execFlowEntered sidRef s.taskId s.taskTitle s.currentMicroTask
          s.microHistory.length])

/-- `handleTaskDone` (App.tsx lines 394-435): emit `exec.flow_ended`,
`session.macro_completed`, `session.ended`, discard the session. -/
def handleTaskDone (sidRef : String) (now : Int) (s? : Option FocusSession) :
    HandlerOut :=
  match s? with
  | none => (none, [])
  | some s =>
      let flowDuration := Int.fdiv (now - s.startTime) 1000
      (none,
       [Payload.execFlowEnded sidRef s.taskId s.taskTitle flowDuration .taskDone,
        Payload.sessionMacroCompleted s.taskId s.taskTitle .flow,
        Payload.sessionEnded sidRef s.taskId s.taskTitle flowDuration
          s.microHistory.length .taskDone])

/-- `handleExitWidget` (App.tsx lines 115-146): emit `abandon.exit` only when
the phase is `executing`; always emit `session.ended` whose duration is
measured from `session.startTime` when `microHistory` is non-empty and from
`Date.now()` itself (that is, zero) otherwise; discard the session. -/
def handleExitWidget (sidRef : String) (now : Int) (s? : Option FocusSession) :
    HandlerOut :=
  match s? with
  | none => (none, [])
  | some s =>
      let abandonEvs :=
        if s.phase = .executing then
          [Payload.abandonExit sidRef s.taskId s.taskTitle s.currentMicroTask
            (Int.fdiv (now - s.startTime) 1000) s.phase.str]
        else []
      let sessionStart := if s.microHistory.length > 0 then s.startTime else now
      (none,
       abandonEvs ++
        [Payload.sessionEnded sidRef s.taskId s.taskTitle
          (Int.fdiv (now - sessionStart) 1000) s.microHistory.length .exit])

/-- `handleSubmitStuckReason` (WidgetView.tsx lines 191-226): when the trimmed
reason is non-empty, emit `stuck.reason` (with the session's own
`sessionId`) and move to `stuck_b` via `onStuckToB`. The advisor request and
the conditional `stuck.pivot_offered` it may later emit are asynchronous and
outside this step. -/
def handleSubmitStuckReason (s : FocusSession) (reason : String)
    (reasonSource : Source) : HandlerOut :=
  if jsTrim reason = "" then (some s, [])
  else
    let toB := handleStuckToB (some s)
    (toB.1,
      Payload.stuckReason s.sessionId s.taskId s.currentMicroTask (jsTrim reason)
        reasonSource :: toB.2)

/-- `handlePivotResume` (WidgetView.tsx lines 229-240): when the trimmed label
is non-empty, emit `stuck.pivot_chosen` (with the session's own
`sessionId`) and call `onResume(newMicro.trim())`, which emits
`exec.micro_started` and re-enters `executing`. -/
def handlePivotResume (sidRef : String) (now : Int) (s : FocusSession)
    (newMicro : String) (pivotSource : Source) : HandlerOut :=
  if jsTrim newMicro = "" then (some s, [])
  else
    let resumed := handleResume sidRef now (some s) (jsTrim newMicro)
    (resumed.1,
      Payload.stuckPivotChosen s.sessionId s.taskId (jsTrim newMicro) pivotSource
        :: resumed.2)

/-- The `stuck_b` panel's continue-original button (WidgetView.tsx lines
524-529): `onClick={() => onResume(currentMicroTask)}` — it calls
`onResume` directly, not `handlePivotResume`. -/
def continueOriginalChoice (sidRef : String) (now : Int) (s : FocusSession) :
    HandlerOut :=
  handleResume sidRef now (some s) s.currentMicroTask

/-! ### EventTracker flush (tracker.ts lines 112-134) -/

/-- One step of the `byDate` grouping loop (tracker.ts lines 119-124): a JS
`Map` keeps keys in first-insertion order, and `list.push(event)` appends
to the group. -/
def addToGroups (gs : List (String × List TrackEvent)) (e : TrackEvent) :
    List (String × List TrackEvent) :=
  if gs.any (fun g => g.1 == e.date) then
    gs.map (fun g => if g.1 == e.date then (g.1, g.2 ++ [e]) else g)
  else gs ++ [(e.date, [e])]

/-- The `byDate` grouping of `eventsToWrite` (tracker.ts lines 119-124). -/
def groupByDate (events : List TrackEvent) : List (String × List TrackEvent) :=
  events.foldl addToGroups []

/-- The `.catch` callbacks of the failed `append` calls, firing in group
order against the buffer as it stands then: each pushes its group's events
onto the end of the buffer (tracker.ts lines 128-132,
`this.buffer.push(...events)`). -/
def runCatches (fails : String → Bool) :
    List (String × List TrackEvent) → List TrackEvent → List TrackEvent
  | [], buf => buf
  | g :: rest, buf =>
      runCatches fails rest (if fails g.1 then buf ++ g.2 else buf)

/-- Result of one `flush` cycle. -/
structure FlushResult where
  appended : List (String × List TrackEvent)
  buffer : List TrackEvent
deriving Repr

/-- `Tracker.flush` (tracker.ts lines 112-134) against an append outcome
`fails : date → Bool`. The buffer is snapshotted and cleared; events are
grouped by date; each group is appended, and a failing group's events are
pushed back by the asynchronous `.catch` callback. `trackedDuring` lists
the events `track` pushed into the (cleared) buffer before the failure
callbacks ran. -/
def flushModel (buffer : List TrackEvent) (fails : String → Bool)
    (trackedDuring : List TrackEvent) : FlushResult :=
  let groups := groupByDate buffer
  { appended := groups.filter (fun g => !(fails g.1))
    buffer := runCatches fails groups trackedDuring }

/-- All events held by a list of date groups, in group order. -/
def groupEvents (gs : List (String × List TrackEvent)) : List TrackEvent :=
  gs.foldr (fun g acc => g.2 ++ acc) []

/-! ### Observation helpers on emitted payloads -/

/-- The `type` discriminant string of a payload: the keys of
`TrackEventMap` (types.ts). -/
def Payload.typeName : Payload → String
  | .planBrainDump .. => "plan.brain_dump"
  | .planFocusSelected .. => "plan.focus_selected"
  | .planFirstMicro .. => "plan.first_micro"
  | .execMicroStarted .. => "exec.micro_started"
  | .execMicroCompleted .. => "exec.micro_completed"
  | .execFlowEntered .. => "exec.flow_entered"
  | .execFlowEnded .. => "exec.flow_ended"
  | .execSubtaskCompleted .. => "exec.subtask_completed"
  | .stuckTriggered .. => "stuck.triggered"
  | .stuckReason .. => "stuck.reason"
  | .stuckPivotOffered .. => "stuck.pivot_offered"
  | .stuckPivotChosen .. => "stuck.pivot_chosen"
  | .abandonExit .. => "abandon.exit"
  | .sessionStarted .. => "session.started"
  | .sessionEnded .. => "session.ended"
  | .sessionMacroCompleted .. => "session.macro_completed"
  | .dailyLeftovers .. => "daily.leftovers"

/-- Whether a payload is a `stuck.pivot_chosen` event. -/
def Payload.isPivotChosen : Payload → Bool
  | .stuckPivotChosen .. => true
  | _ => false

/-- Whether a payload is an `exec.micro_started` event. -/
def Payload.isMicroStarted : Payload → Bool
  | .execMicroStarted .. => true
  | _ => false

/-- Whether a payload is an `abandon.exit` event. -/
def Payload.isAbandonExit : Payload → Bool
  | .abandonExit .. => true
  | _ => false

/-- The `(totalDurationSeconds, completedMicroSteps, endReason)` triples of
the `session.ended` payloads of an emission list. -/
def sessionEndedTotals (ps : List Payload) : List (Int × Nat × EndReason) :=
  ps.filterMap fun p =>
    match p with
    | .sessionEnded _ _ _ tot cms er => some (tot, cms, er)
    | _ => none

/-- The `(lastMicroAction, completedStepCount)` pairs of the
`exec.flow_entered` payloads of an emission list. -/
def flowEnteredInfos (ps : List Payload) : List (String × Nat) :=
  ps.filterMap fun p =>
    match p with
    | .execFlowEntered _ _ _ lma csc => some (lma, csc)
    | _ => none

/-- A payload carries no `estimatedSeconds` in its micro-step fields:
vacuously true for every payload other than `exec.micro_started` and
`exec.micro_completed`. -/
def noEstimateSupplied : Payload → Prop
  | .execMicroStarted _ _ _ _ est => est = none
  | .execMicroCompleted _ _ _ _ _ est => est = none
  | _ => True

/-! ### Spec-side pairing functions

These three recursions restate, in the spec's own words, the pairings
§4.3 attributes to the summary builder; the theorems below compare them
with what `buildDailySummary` computes. -/

/-- Spec §4.3 (flow events, as amended): the first `exec.flow_ended`
anywhere in the day's list that shares the session id. -/
def firstEndedWithSession (sid : String) : List FlowEndedE → Option FlowEndedE
  | [] => none
  | e :: rest => if e.sessionId = sid then some e else firstEndedWithSession sid rest

/-- The claim's reading of §4.3 (flow events): the next `exec.flow_ended`
sharing the session id, i.e. the first one strictly after the
`flow_entered` timestamp. Used to exhibit where the code differs. -/
def nextEndedAfter (sid : String) (ts : Int) : List FlowEndedE → Option FlowEndedE
  | [] => none
  | e :: rest =>
      if e.sessionId = sid ∧ ts < e.timestamp then some e
      else nextEndedAfter sid ts rest

/-- Spec §4.3 (stuck & rescue): the first `stuck.pivot_chosen` of the same
session whose timestamp is strictly later than the reason's. -/
def firstPivotStrictlyAfter (sid : String) (ts : Int) :
    List StuckPivotChosenE → Option StuckPivotChosenE
  | [] => none
  | p :: rest =>
      if p.sessionId = sid ∧ ts < p.timestamp then some p
      else firstPivotStrictlyAfter sid ts rest

/-- Spec §4.3 (stuck & rescue): does any `exec.micro_completed` of the
session fall strictly after the pivot's timestamp? -/
def anyCompletionAfter (sid : String) (ts : Int) : List MicroCompletedE → Bool
  | [] => false
  | mc :: rest =>
      if mc.sessionId = sid ∧ ts < mc.timestamp then true
      else anyCompletionAfter sid ts rest

/-- The stuck-and-rescue record as the spec words it: pair with
`firstPivotStrictlyAfter`; rescue success is `anyCompletionAfter` the
pivot, `null` (`none`) when no pivot was matched; an unmatched reason
keeps the empty pivot label and the `'self'` default source. -/
def specStuckRecord (es : List TrackEvent) (r : StuckReasonE) : StuckRecord :=
  match firstPivotStrictlyAfter r.sessionId r.timestamp (stuckPivotsOf es) with
  | none =>
      { microAction := r.microAction, reason := r.reason
        reasonSource := r.reasonSource, pivotChosen := ""
        pivotSource := .self, rescueSucceeded := none }
  | some p =>
      { microAction := r.microAction, reason := r.reason
        reasonSource := r.reasonSource, pivotChosen := p.chosenPivot
        pivotSource := p.pivotSource
        rescueSucceeded :=
          some (anyCompletionAfter p.sessionId p.timestamp (microCompletedOf es)) }

/-- The flow record as amended: pair with the first same-session
`exec.flow_ended` anywhere in the list, duration 0 when none exists. -/
def specFlowRecord (es : List TrackEvent) (enter : FlowEnteredE) : FlowRecord :=
  match firstEndedWithSession enter.sessionId (flowEndedOf es) with
  | none =>
      { taskTitle := enter.taskTitle, triggeredAt := enter.timestamp
        durationSeconds := 0, lastMicroBeforeFlow := enter.lastMicroAction }
  | some e =>
      { taskTitle := enter.taskTitle, triggeredAt := enter.timestamp
        durationSeconds := e.flowDurationSeconds
        lastMicroBeforeFlow := enter.lastMicroAction }

/-! ### Concrete inputs for counterexamples and witnesses -/

/-- Event constructor fixing the date partition used by the examples. -/
def mkEvent (id : String) (ts : Int) (p : Payload) : TrackEvent :=
  { id := id, timestamp := ts, date := "2026-02-21", payload := p }

/-- Input for the trail-order counterexample: a `stuck.triggered` event
strictly before an `exec.micro_completed` event. -/
def exTrailEvents : List TrackEvent :=
  [mkEvent "e1" 1000 (.stuckTriggered "s1" "t1" "write intro" 30),
   mkEvent "e2" 2000 (.execMicroCompleted "s1" "t1" "Paper" "open doc" 90 none)]

/-- Input for the flow-pairing counterexample: two flow episodes of the
same session, enter/end interleaved in time order. -/
def exFlowEvents : List TrackEvent :=
  [mkEvent "f1" 1 (.execFlowEntered "s1" "t1" "Paper" "open doc" 1),
   mkEvent "f2" 2 (.execFlowEnded "s1" "t1" "Paper" 10 .taskDone),
   mkEvent "f3" 3 (.execFlowEntered "s1" "t1" "Paper" "re-read" 2),
   mkEvent "f4" 4 (.execFlowEnded "s1" "t1" "Paper" 20 .taskDone)]

/-- A buffered event awaiting flush. -/
def exBufferedEvent : TrackEvent := mkEvent "e1" 1000 (.sessionStarted "s1" "t1" "Paper")

/-- An event tracked after a flush began. -/
def exLaterEvent : TrackEvent := mkEvent "e2" 2000 (.stuckTriggered "s1" "t1" "open doc" 5)

/-- A session sitting in the `relay` phase. -/
def exSessRelay : FocusSession :=
  { sessionId := "s-1", taskId := "t1", taskTitle := "Paper"
    currentMicroTask := "open doc", startTime := 0, isFlowMode := false
    phase := .relay, microHistory := ["step 1"] }

/-- A session sitting in the `stuck_b` phase. -/
def exSessStuckB : FocusSession :=
  { sessionId := "s-1", taskId := "t1", taskTitle := "Paper"
    currentMicroTask := "open doc", startTime := 0, isFlowMode := false
    phase := .stuckB, microHistory := ["step 1"] }

/-- A one-event list whose micro events all lack an estimate. -/
def exNoEstimateEvents : List TrackEvent :=
  [mkEvent "e1" 1000 (.execMicroCompleted "s1" "t1" "Paper" "open doc" 90 none)]

/-! ## Theorems -/

/-! ### Projection lemmas for `buildDailySummary`

The builder is one definition with local bindings; these equalities read
its components back off, definitionally. -/

theorem microStepTrail_eq (d : String) (es : List TrackEvent) :
    (buildDailySummary d es).microStepTrail =
      (microCompletedOf es).map completedEntry
        ++ (stuckTriggeredOf es).map stuckEntry
        ++ (abandonExitsOf es).map abandonEntry := rfl

theorem stuckEvents_eq (d : String) (es : List TrackEvent) :
    (buildDailySummary d es).stuckEvents =
      (stuckReasonsOf es).map
        (stuckRecordFor (stuckPivotsOf es) (microCompletedOf es)) := rfl

theorem flowEvents_eq (d : String) (es : List TrackEvent) :
    (buildDailySummary d es).flowEvents =
      (flowEnteredOf es).map (flowRecordFor (flowEndedOf es)) := rfl

theorem avgDelta_eq (d : String) (es : List TrackEvent) :
    (buildDailySummary d es).stats.averageTimeDeltaSeconds =
      (if ((((buildDailySummary d es).microStepTrail.filter
              (fun m => m.timeDeltaSeconds.isSome)).filterMap
                (·.timeDeltaSeconds)).length > 0) then
        some (jsRound
          ((((buildDailySummary d es).microStepTrail.filter
              (fun m => m.timeDeltaSeconds.isSome)).filterMap
                (·.timeDeltaSeconds)).foldl (· + ·) 0)
          ((((buildDailySummary d es).microStepTrail.filter
              (fun m => m.timeDeltaSeconds.isSome)).filterMap
                (·.timeDeltaSeconds)).length))
      else none) := rfl

/-! ### C1 — illegal transitions -/

/-- C1 counterexample: `completeAction()` (i.e. `handleMicroComplete`)
invoked while the session sits in `relay` — a phase whose §4.1 definition
does not include that command — is not a no-op: it emits an
`exec.micro_completed` event and changes the session state. -/
theorem completeAction_in_relay_not_noop :
    ((handleMicroComplete "s-1" 5000 (some exSessRelay)).2.map Payload.typeName
        = ["exec.micro_completed"])
    ∧ ((handleMicroComplete "s-1" 5000 (some exSessRelay)).1 ≠ some exSessRelay) := by
  decide

/-- C1 (amended): a command invoked while `Idle` (no session) is a no-op —
the state stays `none` and no event is emitted. That is the only guard the
handlers implement (`if (!session) return`); with an active session they
run regardless of its phase. -/
theorem idle_commands_are_noops (sidRef : String) (now : Int) (micro : String) :
    handleMicroComplete sidRef now none = (none, [])
    ∧ handleStuck sidRef now none = (none, [])
    ∧ handleNextMicro sidRef now micro none = (none, [])
    ∧ handleResume sidRef now none micro = (none, [])
    ∧ handleEnterFlow sidRef now none = (none, [])
    ∧ handleTaskDone sidRef now none = (none, [])
    ∧ handleStuckToB none = (none, [])
    ∧ handleExitWidget sidRef now none = (none, []) :=
  ⟨rfl, rfl, rfl, rfl, rfl, rfl, rfl, rfl⟩

/-! ### C4 — stuck_b pivot choices -/

/-- C4: evaluating the code at the failing input. With the session in
`stuck_b`, the advisor-suggested and self-typed paths go through
`handlePivotResume` and emit `stuck.pivot_chosen` followed by
`exec.micro_started`; the continue-original button calls `onResume`
directly and emits only `exec.micro_started` — no `stuck.pivot_chosen`
event (the `'resume_original'` pivot source is never used). All three
paths do transition back to `executing`. -/
theorem continue_original_skips_pivot_event :
    ((continueOriginalChoice "s-1" 9000 exSessStuckB).2.map Payload.typeName
        = ["exec.micro_started"])
    ∧ ((continueOriginalChoice "s-1" 9000 exSessStuckB).1.map (·.phase)
        = some .executing)
    ∧ ((handlePivotResume "s-1" 9000 exSessStuckB "draw a sketch" .aiChip).2.map
          Payload.typeName
        = ["stuck.pivot_chosen", "exec.micro_started"])
    ∧ ((handlePivotResume "s-1" 9000 exSessStuckB "try a mind map" .self).2.map
          Payload.typeName
        = ["stuck.pivot_chosen", "exec.micro_started"]) := by
  decide

/-! ### C8 — determinism of the summary builder -/

/-- C8: `buildDailySummary` is deterministic — equal date and event-list
inputs yield equal `DailySummary` values. (The embedding is a pure
function, mirroring the source, which reads no clock and no mutable state
inside `buildDailySummary`; absence of input mutation is inherent to this
purity.) -/
theorem buildDailySummary_deterministic (d : String) (es₁ es₂ : List TrackEvent)
    (h : es₁ = es₂) : buildDailySummary d es₁ = buildDailySummary d es₂ := by
  rw [h]

/-- Witness for C8 at a concrete input. -/
theorem buildDailySummary_deterministic_witness :
    buildDailySummary "2026-02-21" exTrailEvents
      = buildDailySummary "2026-02-21" exTrailEvents :=
  buildDailySummary_deterministic "2026-02-21" exTrailEvents exTrailEvents rfl

/-! ### C2 — flush failure recovery -/

theorem groupEvents_cons (g : String × List TrackEvent)
    (gs : List (String × List TrackEvent)) :
    groupEvents (g :: gs) = g.2 ++ groupEvents gs := rfl

theorem runCatches_spec (fails : String → Bool)
    (gs : List (String × List TrackEvent)) (buf : List TrackEvent) :
    runCatches fails gs buf = buf ++ groupEvents (gs.filter (fun g => fails g.1)) := by
  induction gs generalizing buf with
  | nil => simp [runCatches, groupEvents]
  | cons g rest ih =>
    cases hf : fails g.1 with
    | true =>
        simp only [runCatches, hf, if_pos, List.filter_cons, groupEvents_cons, ih,
          List.append_assoc]
    | false =>
        simp only [runCatches, hf, List.filter_cons, ih]
        simp

theorem mem_addToGroups_self (gs : List (String × List TrackEvent)) (x : TrackEvent) :
    ∃ g ∈ addToGroups gs x, x ∈ g.2 := by
  unfold addToGroups
  cases hem : gs.any (fun g => g.1 == x.date) with
  | true =>
      obtain ⟨g0, hg0, hbeq⟩ := List.any_eq_true.mp hem
      simp only [hem, if_true]
      exact ⟨(g0.1, g0.2 ++ [x]),
        List.mem_map.mpr ⟨g0, hg0, by simp [hbeq]⟩, by simp⟩
  | false =>
      simp only [hem, if_false, Bool.false_eq_true]
      exact ⟨(x.date, [x]), by simp, by simp⟩

theorem mem_addToGroups_mono (gs : List (String × List TrackEvent))
    (x e : TrackEvent) (h : ∃ g ∈ gs, e ∈ g.2) :
    ∃ g ∈ addToGroups gs x, e ∈ g.2 := by
  obtain ⟨g, hg, hge⟩ := h
  unfold addToGroups
  cases hem : gs.any (fun g => g.1 == x.date) with
  | true =>
      simp only [hem, if_true]
      cases hd : (g.1 == x.date) with
      | true =>
          exact ⟨(g.1, g.2 ++ [x]),
            List.mem_map.mpr ⟨g, hg, by simp [hd]⟩, by simp [hge]⟩
      | false =>
          exact ⟨g, List.mem_map.mpr ⟨g, hg, by simp [hd]⟩, hge⟩
  | false =>
      simp only [hem, if_false, Bool.false_eq_true]
      exact ⟨g, List.mem_append_left _ hg, hge⟩

theorem mem_groupByDate_aux (es : List TrackEvent)
    (acc : List (String × List TrackEvent)) (e : TrackEvent)
    (h : e ∈ es ∨ ∃ g ∈ acc, e ∈ g.2) :
    ∃ g ∈ es.foldl addToGroups acc, e ∈ g.2 := by
  induction es generalizing acc with
  | nil =>
      rcases h with h | h
      · cases h
      · simpa using h
  | cons x rest ih =>
      rw [List.foldl_cons]
      apply ih
      rcases h with h | h
      · rcases List.mem_cons.mp h with rfl | h'
        · exact Or.inr (mem_addToGroups_self acc e)
        · exact Or.inl h'
      · exact Or.inr (mem_addToGroups_mono acc x e h)

theorem mem_groupEvents {e : TrackEvent} {gs : List (String × List TrackEvent)}
    (g : String × List TrackEvent) (hg : g ∈ gs) (he : e ∈ g.2) :
    e ∈ groupEvents gs := by
  induction gs with
  | nil => cases hg
  | cons g' rest ih =>
      rw [groupEvents_cons]
      rcases List.mem_cons.mp hg with rfl | h
      · exact List.mem_append_left _ he
      · exact List.mem_append_right _ (ih h)

/-- C2 (amended): when appends fail during a flush, every event of a failed
date group is requeued — at the BACK of the in-memory buffer, behind any
events tracked after the flush began (the source uses
`this.buffer.push(...events)`) — and no event is dropped: every event of
the flushed snapshot is either part of a successful append or back in the
buffer, so a subsequent flush retries the failed ones. -/
theorem flush_failure_requeues_all (buffer trackedDuring : List TrackEvent)
    (fails : String → Bool) :
    ((flushModel buffer fails trackedDuring).buffer
      = trackedDuring
        ++ groupEvents ((groupByDate buffer).filter (fun g => fails g.1)))
    ∧ (∀ e ∈ buffer,
        (∃ g ∈ (flushModel buffer fails trackedDuring).appended, e ∈ g.2)
        ∨ e ∈ (flushModel buffer fails trackedDuring).buffer) := by
  constructor
  · exact runCatches_spec fails (groupByDate buffer) trackedDuring
  · intro e he
    obtain ⟨g, hg, hge⟩ := mem_groupByDate_aux buffer [] e (Or.inl he)
    cases hf : fails g.1 with
    | true =>
        right
        have hb : (flushModel buffer fails trackedDuring).buffer
            = trackedDuring
              ++ groupEvents ((groupByDate buffer).filter (fun g => fails g.1)) :=
          runCatches_spec fails (groupByDate buffer) trackedDuring
        rw [hb]
        exact List.mem_append_right _
          (mem_groupEvents g (List.mem_filter.mpr ⟨hg, hf⟩) hge)
    | false =>
        left
        exact ⟨g, List.mem_filter.mpr ⟨hg, by simp [hf]⟩, hge⟩

/-- C2 counterexample: with one buffered event whose append fails and one
event tracked after the flush began, the failed event is requeued at the
back of the buffer — behind the newer event — not at the front as the
claim states. -/
theorem flush_requeues_at_back_not_front :
    ((flushModel [exBufferedEvent] (fun _ => true) [exLaterEvent]).buffer
        = [exLaterEvent, exBufferedEvent])
    ∧ ((flushModel [exBufferedEvent] (fun _ => true) [exLaterEvent]).buffer
        ≠ [exBufferedEvent, exLaterEvent]) := by
  decide

/-! ### C3 — the micro-step trail -/

theorem filter_status_map_eq {α : Type} (f : α → MicroEntry) (st : StepStatus)
    (h : ∀ a, (f a).status = st) (l : List α) :
    (l.map f).filter (fun m => m.status == st) = l.map f := by
  induction l with
  | nil => rfl
  | cons a l ih => simp [List.filter_cons, h, ih]

theorem filter_status_map_ne {α : Type} (f : α → MicroEntry) (st st' : StepStatus)
    (h : ∀ a, (f a).status = st) (hne : st ≠ st') (l : List α) :
    (l.map f).filter (fun m => m.status == st') = [] := by
  have hb : (st == st') = false := beq_eq_false_iff_ne.mpr hne
  induction l with
  | nil => rfl
  | cons a l ih => simp [List.filter_cons, h, hb, ih]

/-- C3 (amended): the micro-step trail carries one entry per
`exec.micro_completed`, `stuck.triggered` and `abandon.exit` event with the
stated content — in particular `timeDeltaSeconds = actualSeconds −
estimatedSeconds` exactly when an estimate is present — and the entries of
each status preserve the relative order of their source events; but the
trail is grouped by status (all completed entries first, then all stuck
entries, then all abandoned ones), not interleaved in overall input
order. -/
theorem micro_trail_content_and_grouping (d : String) (es : List TrackEvent) :
    ((((buildDailySummary d es).microStepTrail.filter
        (fun m => m.status == .completed)).map
          (fun m => (m.microAction, m.actualSeconds, m.timeDeltaSeconds)))
      = (microCompletedOf es).map (fun e => (e.microAction, e.actualSeconds,
          match e.estimatedSeconds with
          | some est => some (e.actualSeconds - est)
          | none => none)))
    ∧ ((((buildDailySummary d es).microStepTrail.filter
        (fun m => m.status == .stuck)).map
          (fun m => (m.microAction, m.actualSeconds)))
      = (stuckTriggeredOf es).map (fun e => (e.microAction, e.elapsedSeconds)))
    ∧ ((((buildDailySummary d es).microStepTrail.filter
        (fun m => m.status == .abandoned)).map
          (fun m => (m.microAction, m.actualSeconds)))
      = (abandonExitsOf es).map (fun e => (e.microAction, e.elapsedSeconds)))
    ∧ ((buildDailySummary d es).microStepTrail
      = ((buildDailySummary d es).microStepTrail.filter
            (fun m => m.status == .completed))
        ++ ((buildDailySummary d es).microStepTrail.filter
            (fun m => m.status == .stuck))
        ++ ((buildDailySummary d es).microStepTrail.filter
            (fun m => m.status == .abandoned))) := by
  have hc : ∀ e, (completedEntry e).status = StepStatus.completed := fun _ => rfl
  have hs : ∀ e, (stuckEntry e).status = StepStatus.stuck := fun _ => rfl
  have ha : ∀ e, (abandonEntry e).status = StepStatus.abandoned := fun _ => rfl
  have n1 := filter_status_map_ne completedEntry StepStatus.completed StepStatus.stuck
    hc (by decide)
  have n2 := filter_status_map_ne completedEntry StepStatus.completed StepStatus.abandoned
    hc (by decide)
  have n3 := filter_status_map_ne stuckEntry StepStatus.stuck StepStatus.completed
    hs (by decide)
  have n4 := filter_status_map_ne stuckEntry StepStatus.stuck StepStatus.abandoned
    hs (by decide)
  have n5 := filter_status_map_ne abandonEntry StepStatus.abandoned StepStatus.completed
    ha (by decide)
  have n6 := filter_status_map_ne abandonEntry StepStatus.abandoned StepStatus.stuck
    ha (by decide)
  refine ⟨?_, ?_, ?_, ?_⟩ <;>
    rw [microStepTrail_eq] <;>
    simp only [List.filter_append,
      filter_status_map_eq _ _ hc, filter_status_map_eq _ _ hs,
      filter_status_map_eq _ _ ha, n1, n2, n3, n4, n5, n6,
      List.append_nil, List.nil_append, List.map_map]
  · refine List.map_congr_left ?_
    intro e _
    cases h : e.estimatedSeconds <;> simp [completedEntry, Function.comp, h]
  · rfl
  · rfl

/-- C3 counterexample: with a `stuck.triggered` event strictly before an
`exec.micro_completed` event in the input, the trail lists the completed
entry first — not the relative order of the source events. -/
theorem trail_not_in_input_order :
    ((buildDailySummary "2026-02-21" exTrailEvents).microStepTrail.map (·.status)
        = [.completed, .stuck])
    ∧ (exTrailEvents.map (fun e => e.payload.typeName)
        = ["stuck.triggered", "exec.micro_completed"]) := by
  decide

/-! ### C5 / C6 — the summary builder's pairings -/

theorem firstPivotStrictlyAfter_eq_find (sid : String) (ts : Int)
    (ps : List StuckPivotChosenE) :
    firstPivotStrictlyAfter sid ts ps
      = ps.find? (fun p => p.sessionId == sid && p.timestamp > ts) := by
  induction ps with
  | nil => rfl
  | cons p rest ih =>
    simp only [firstPivotStrictlyAfter, List.find?]
    by_cases h : p.sessionId = sid ∧ ts < p.timestamp
    · have hp : (p.sessionId == sid && decide (p.timestamp > ts)) = true := by
        simp only [Bool.and_eq_true, beq_iff_eq, decide_eq_true_eq]
        exact ⟨h.1, h.2⟩
      rw [if_pos h, hp]
    · have hn : (p.sessionId == sid && decide (p.timestamp > ts)) = false := by
        refine Bool.eq_false_iff.mpr fun hc => h ?_
        simp only [Bool.and_eq_true, beq_iff_eq, decide_eq_true_eq] at hc
        exact ⟨hc.1, hc.2⟩
      rw [if_neg h, hn]
      exact ih

theorem anyCompletionAfter_eq_find (sid : String) (ts : Int)
    (mcs : List MicroCompletedE) :
    anyCompletionAfter sid ts mcs
      = (mcs.find? (fun mc => mc.sessionId == sid && mc.timestamp > ts)).isSome := by
  induction mcs with
  | nil => rfl
  | cons mc rest ih =>
    simp only [anyCompletionAfter, List.find?]
    by_cases h : mc.sessionId = sid ∧ ts < mc.timestamp
    · have hp : (mc.sessionId == sid && decide (mc.timestamp > ts)) = true := by
        simp only [Bool.and_eq_true, beq_iff_eq, decide_eq_true_eq]
        exact ⟨h.1, h.2⟩
      rw [if_pos h, hp]
      rfl
    · have hn : (mc.sessionId == sid && decide (mc.timestamp > ts)) = false := by
        refine Bool.eq_false_iff.mpr fun hc => h ?_
        simp only [Bool.and_eq_true, beq_iff_eq, decide_eq_true_eq] at hc
        exact ⟨hc.1, hc.2⟩
      rw [if_neg h, hn]
      exact ih

theorem firstEndedWithSession_eq_find (sid : String) (ends : List FlowEndedE) :
    firstEndedWithSession sid ends = ends.find? (fun e => e.sessionId == sid) := by
  induction ends with
  | nil => rfl
  | cons e rest ih =>
    simp only [firstEndedWithSession, List.find?]
    by_cases h : e.sessionId = sid
    · have hp : (e.sessionId == sid) = true := by simp [h]
      rw [if_pos h, hp]
    · have hn : (e.sessionId == sid) = false := by simp [h]
      rw [if_neg h, hn]
      exact ih

theorem stuckRecordFor_eq_spec (es : List TrackEvent) (r : StuckReasonE) :
    stuckRecordFor (stuckPivotsOf es) (microCompletedOf es) r
      = specStuckRecord es r := by
  unfold stuckRecordFor specStuckRecord pivotFor
  rw [← firstPivotStrictlyAfter_eq_find]
  cases h : firstPivotStrictlyAfter r.sessionId r.timestamp (stuckPivotsOf es) with
  | none => simp [h]
  | some p => simp [h, anyCompletionAfter_eq_find]

theorem flowRecordFor_eq_spec (es : List TrackEvent) (enter : FlowEnteredE) :
    flowRecordFor (flowEndedOf es) enter = specFlowRecord es enter := by
  unfold flowRecordFor specFlowRecord
  rw [← firstEndedWithSession_eq_find]
  cases h : firstEndedWithSession enter.sessionId (flowEndedOf es) with
  | none => simp [h]
  | some e => simp [h]

/-- C5: each `stuck.reason` is paired with the first `stuck.pivot_chosen`
of the same session whose timestamp is strictly later — any matched pivot
satisfies both constraints, so one at or before the reason is never
matched — and `rescueSucceeded` is `some true` iff some
`exec.micro_completed` of that session lies strictly after the matched
pivot, `some false` when a pivot matched but no completion followed, and
`none` (null) when no pivot was matched; the record mirrors
`specStuckRecord`, the spec-worded construction. -/
theorem stuck_rescue_pairing (d : String) (es : List TrackEvent) :
    ((buildDailySummary d es).stuckEvents
      = (stuckReasonsOf es).map (specStuckRecord es))
    ∧ (∀ r p, pivotFor (stuckPivotsOf es) r = some p →
        p.sessionId = r.sessionId ∧ r.timestamp < p.timestamp) := by
  constructor
  · rw [stuckEvents_eq]
    exact List.map_congr_left (fun r _ => stuckRecordFor_eq_spec es r)
  · intro r p hp
    unfold pivotFor at hp
    have hpred := List.find?_some hp
    simp only [Bool.and_eq_true, beq_iff_eq, decide_eq_true_eq] at hpred
    exact ⟨hpred.1, hpred.2⟩

/-- C6 (amended): each `exec.flow_entered` is paired with the FIRST
`exec.flow_ended` of the same session anywhere in the input list — not
the next one after it — with `durationSeconds` taken from that event's
`flowDurationSeconds`, and 0 when no `flow_ended` of that session exists
(`specFlowRecord` is the amended spec-worded construction). -/
theorem flow_pairing_amended (d : String) (es : List TrackEvent) :
    (buildDailySummary d es).flowEvents
      = (flowEnteredOf es).map (specFlowRecord es) := by
  rw [flowEvents_eq]
  exact List.map_congr_left (fun enter _ => flowRecordFor_eq_spec es enter)

/-- C6 counterexample: two flow episodes of one session. The second
`flow_entered` (timestamp 3) is paired with the first same-session
`flow_ended` of the list (duration 10, timestamp 2 — before it), although
the next same-session `flow_ended` after it carries duration 20. -/
theorem flow_pairing_uses_first_not_next :
    ((buildDailySummary "2026-02-21" exFlowEvents).flowEvents.map
        (·.durationSeconds) = [10, 10])
    ∧ ((nextEndedAfter "s1" 3 (flowEndedOf exFlowEvents)).map
        (·.flowDurationSeconds) = some 20) := by
  decide

/-! ### C7 — enterFlow -/

/-- C7: calling `enterFlow()` in phase `Relay` emits exactly one event — an
`exec.flow_entered` whose `lastMicroAction` is the session's current
micro-action label and whose `completedStepCount` equals
`microHistory.length` at that moment — sets `isFlowMode` to true, switches
the displayed label (`currentMicroTask`) to the macro task title, resets
the phase-entry timer, and returns the phase to `executing`. -/
theorem enterFlow_in_relay (sidRef : String) (now : Int) (s : FocusSession)
    (_h : s.phase = .relay) :
    ((handleEnterFlow sidRef now (some s)).2.length = 1)
    ∧ (flowEnteredInfos (handleEnterFlow sidRef now (some s)).2
        = [(s.currentMicroTask, s.microHistory.length)])
    ∧ (∃ s', (handleEnterFlow sidRef now (some s)).1 = some s'
        ∧ s'.isFlowMode = true
        ∧ s'.phase = .executing
        ∧ s'.currentMicroTask = s.taskTitle
        ∧ s'.startTime = now) :=
  ⟨rfl, rfl, ⟨_, rfl, rfl, rfl, rfl, rfl⟩⟩

/-- Witness for C7 at a concrete relay-phase session. -/
theorem enterFlow_in_relay_witness :
    (exSessRelay.phase = .relay)
    ∧ ((handleEnterFlow "s-1" 7000 (some exSessRelay)).2.length = 1) :=
  ⟨rfl, (enterFlow_in_relay "s-1" 7000 exSessRelay rfl).1⟩

/-! ### C9 — exit accounting -/

/-- C9: when `exit()` ends a session, the `session.ended` event's
`totalDurationSeconds` is measured from the current micro-action's
phase-entry time (`session.startTime`), not from session creation: it is
`⌊(now − startTime)/1000⌋` when `microHistory` is non-empty and 0 when it
is empty; `completedMicroSteps` always equals `microHistory.length`; and
the `abandon.exit` event is emitted exactly when the session's phase is
`executing` at the moment of exit. -/
theorem exit_session_accounting (sidRef : String) (now : Int) (s : FocusSession) :
    (sessionEndedTotals (handleExitWidget sidRef now (some s)).2
      = [((if s.microHistory ≠ [] then Int.fdiv (now - s.startTime) 1000 else 0),
          s.microHistory.length, EndReason.exit)])
    ∧ (((handleExitWidget sidRef now (some s)).2.countP Payload.isAbandonExit)
        = if s.phase = .executing then 1 else 0)
    ∧ ((handleExitWidget sidRef now (some s)).1 = none) := by
  unfold handleExitWidget sessionEndedTotals
  cases hp : s.phase <;> cases hh : s.microHistory <;>
    simp [hp, hh, Payload.isAbandonExit, List.countP_cons, List.countP_nil,
      Int.sub_self, Int.zero_fdiv]

/-! ### C10 — the controller supplies no estimates -/

theorem mem_microCompleted_no_estimate (es : List TrackEvent)
    (h : ∀ e ∈ es, noEstimateSupplied e.payload) :
    ∀ mce ∈ microCompletedOf es, mce.estimatedSeconds = none := by
  intro mce hmce
  rw [microCompletedOf, List.mem_filterMap] at hmce
  obtain ⟨ev, hev, hsome⟩ := hmce
  have hne := h ev hev
  unfold asMicroCompleted at hsome
  cases hp : ev.payload <;> rw [hp] at hsome <;> simp at hsome
  subst hsome
  rw [hp] at hne
  exact hne

/-- C10: the session controller never supplies `estimatedSeconds` in any
event it emits — in particular not in `exec.micro_started` or
`exec.micro_completed` (`noEstimateSupplied` holds of every emission of
every handler) — and consequently, for any event list whose micro events
all lack an estimate, every micro-step-trail entry of `buildDailySummary`
has no `timeDeltaSeconds` and `stats.averageTimeDeltaSeconds` is null. -/
theorem controller_supplies_no_estimates :
    (∀ sid tid tt micro src now sub,
      ∀ p ∈ (handleStartMicro sid tid tt micro src now sub).2, noEstimateSupplied p)
    ∧ (∀ sidRef now s?,
      ∀ p ∈ (handleMicroComplete sidRef now s?).2, noEstimateSupplied p)
    ∧ (∀ sidRef now micro s?,
      ∀ p ∈ (handleNextMicro sidRef now micro s?).2, noEstimateSupplied p)
    ∧ (∀ sidRef now s? micro,
      ∀ p ∈ (handleResume sidRef now s? micro).2, noEstimateSupplied p)
    ∧ (∀ sidRef now s?,
      ∀ p ∈ (handleStuck sidRef now s?).2, noEstimateSupplied p)
    ∧ (∀ s?, ∀ p ∈ (handleStuckToB s?).2, noEstimateSupplied p)
    ∧ (∀ sidRef now s?,
      ∀ p ∈ (handleEnterFlow sidRef now s?).2, noEstimateSupplied p)
    ∧ (∀ sidRef now s?,
      ∀ p ∈ (handleTaskDone sidRef now s?).2, noEstimateSupplied p)
    ∧ (∀ sidRef now s?,
      ∀ p ∈ (handleExitWidget sidRef now s?).2, noEstimateSupplied p)
    ∧ (∀ s reason rsrc,
      ∀ p ∈ (handleSubmitStuckReason s reason rsrc).2, noEstimateSupplied p)
    ∧ (∀ sidRef now s micro psrc,
      ∀ p ∈ (handlePivotResume sidRef now s micro psrc).2, noEstimateSupplied p)
    ∧ (∀ sidRef now s,
      ∀ p ∈ (continueOriginalChoice sidRef now s).2, noEstimateSupplied p)
    ∧ (∀ d es, (∀ e ∈ es, noEstimateSupplied e.payload) →
        (∀ m ∈ (buildDailySummary d es).microStepTrail, m.timeDeltaSeconds = none)
        ∧ (buildDailySummary d es).stats.averageTimeDeltaSeconds = none) := by
  refine ⟨?_, ?_, ?_, ?_, ?_, ?_, ?_, ?_, ?_, ?_, ?_, ?_, ?_⟩
  · intro sid tid tt micro src now sub p hp
    simp [handleStartMicro] at hp
    rcases hp with rfl | rfl | rfl <;> trivial
  · intro sidRef now s? p hp
    cases s? <;> simp [handleMicroComplete] at hp
    subst hp; trivial
  · intro sidRef now micro s? p hp
    cases s? <;> simp [handleNextMicro] at hp
    subst hp; trivial
  · intro sidRef now s? micro p hp
    cases s? <;> simp [handleResume] at hp
    subst hp; trivial
  · intro sidRef now s? p hp
    cases s? <;> simp [handleStuck] at hp
    subst hp; trivial
  · intro s? p hp
    cases s? <;> simp [handleStuckToB] at hp
  · intro sidRef now s? p hp
    cases s? <;> simp [handleEnterFlow] at hp
    subst hp; trivial
  · intro sidRef now s? p hp
    cases s? <;> simp [handleTaskDone] at hp
    rcases hp with rfl | rfl | rfl <;> trivial
  · intro sidRef now s? p hp
    cases s? with
    | none => simp [handleExitWidget] at hp
    | some s =>
        simp [handleExitWidget] at hp
        rcases hp with ⟨_, rfl⟩ | rfl <;> trivial
  · intro s reason rsrc p hp
    by_cases ht : jsTrim reason = "" <;>
      simp [handleSubmitStuckReason, handleStuckToB, ht] at hp
    subst hp; trivial
  · intro sidRef now s micro psrc p hp
    by_cases ht : jsTrim micro = "" <;>
      simp [handlePivotResume, handleResume, ht] at hp
    rcases hp with rfl | rfl <;> trivial
  · intro sidRef now s p hp
    simp [continueOriginalChoice, handleResume] at hp
    subst hp; trivial
  · intro d es h
    have htrail : ∀ m ∈ (buildDailySummary d es).microStepTrail,
        m.timeDeltaSeconds = none := by
      intro m hm
      rw [microStepTrail_eq] at hm
      rcases List.mem_append.mp hm with hm' | hab
      · rcases List.mem_append.mp hm' with hcm | hsm
        · obtain ⟨mce, hmce, rfl⟩ := List.mem_map.mp hcm
          have hest := mem_microCompleted_no_estimate es h mce hmce
          simp [completedEntry, hest]
        · obtain ⟨e, _, rfl⟩ := List.mem_map.mp hsm
          rfl
      · obtain ⟨e, _, rfl⟩ := List.mem_map.mp hab
        rfl
    refine ⟨htrail, ?_⟩
    rw [avgDelta_eq]
    have hnil : ((buildDailySummary d es).microStepTrail.filter
        (fun m => m.timeDeltaSeconds.isSome)) = [] := by
      rw [List.filter_eq_nil_iff]
      intro m hm
      simp [htrail m hm]
    rw [hnil]
    simp

/-- Witness for C10's consequence at a concrete input: a single
`exec.micro_completed` event without an estimate yields a trail whose only
entry has no `timeDeltaSeconds`, and a null average delta. -/
theorem controller_supplies_no_estimates_witness :
    (∀ m ∈ (buildDailySummary "2026-02-21" exNoEstimateEvents).microStepTrail,
      m.timeDeltaSeconds = none)
    ∧ (buildDailySummary "2026-02-21" exNoEstimateEvents).stats.averageTimeDeltaSeconds
        = none :=
  controller_supplies_no_estimates.2.2.2.2.2.2.2.2.2.2.2.2
    "2026-02-21" exNoEstimateEvents (by
      intro e he
      simp [exNoEstimateEvents, mkEvent] at he
      subst he
      trivial)

end Planner
